import Mathlib

/-!
Verification of the ZAP browser-extension bridge (`src/zap-client.ts`,
`src/cdp-bridge-server.ts`).

The development shallowly embeds the protocol codec, the per-connection
client state machine, the multi-endpoint connection manager and the
CDP command router, and proves the behavioural claims about them.

JavaScript values that cross the wire are modelled by `JValue`
(JSON values with integer numerics); the built-in `JSON.stringify` /
`JSON.parse` pair is modelled by `jsonStringify` / `jsonParse` below
(string escapes cover the quote and backslash; no insignificant
whitespace), and `TextEncoder` / `TextDecoder` by `utf8Encode` /
`utf8Decode`.
-/

namespace Zap

/-- JSON values (the JSON-serializable JavaScript values); numbers are
modelled as integers. -/
inductive JValue where
  | null : JValue
  | bool (b : Bool) : JValue
  | num (n : Int) : JValue
  | str (s : String) : JValue
  | arr (elems : List JValue) : JValue
  | obj (fields : List (String × JValue)) : JValue
deriving Repr

/-! ## JSON.stringify model -/

/-- The decimal digit character for `d < 10`. -/
def digitChar (d : Nat) : Char := Char.ofNat (48 + d)

/-- Decimal digits of a natural number, most significant first
(`JSON.stringify` output for a non-negative number). -/
def natChars (n : Nat) : List Char :=
  if n < 10 then [digitChar n]
  else natChars (n / 10) ++ [digitChar (n % 10)]
decreasing_by exact Nat.div_lt_self (by omega) (by omega)

/-- Decimal representation of an integer. -/
def intChars (i : Int) : List Char :=
  if i < 0 then '-' :: natChars (-i).toNat else natChars i.toNat

/-- `JSON.stringify` string escaping: quote and backslash are escaped,
all other characters pass through. -/
def escChar (c : Char) : List Char :=
  if c = '"' then ['\\', '"']
  else if c = '\\' then ['\\', '\\'] else [c]

/-- Escape a whole character list. -/
def escList : List Char → List Char
  | [] => []
  | c :: cs => escChar c ++ escList cs

/-- A JSON string literal: quote, escaped body, quote. -/
def strChars (s : String) : List Char := '"' :: (escList s.toList ++ ['"'])

/-- The keyword `null`. -/
def nullChars : List Char := ['n', 'u', 'l', 'l']

/-- The keyword `true`. -/
def trueChars : List Char := ['t', 'r', 'u', 'e']

/-- The keyword `false`. -/
def falseChars : List Char := ['f', 'a', 'l', 's', 'e']

mutual

/-- Characters of `JSON.stringify` applied to a `JValue`. -/
def jChars : JValue → List Char
  | .null => nullChars
  | .bool true => trueChars
  | .bool false => falseChars
  | .num i => intChars i
  | .str s => strChars s
  | .arr es => '[' :: (jCharsElems es ++ [']'])
  | .obj fs => '{' :: (jCharsFields fs ++ ['}'])

/-- Comma-separated stringified array elements. -/
def jCharsElems : List JValue → List Char
  | [] => []
  | [e] => jChars e
  | e :: es => jChars e ++ ',' :: jCharsElems es

/-- Comma-separated stringified object members (`"key":value`). -/
def jCharsFields : List (String × JValue) → List Char
  | [] => []
  | [(k, v)] => strChars k ++ ':' :: jChars v
  | (k, v) :: fs => (strChars k ++ ':' :: jChars v) ++ ',' :: jCharsFields fs

end

/-- The model of `JSON.stringify`. -/
def jsonStringify (v : JValue) : String := String.mk (jChars v)

/-! ## JSON.parse model

A fuel-indexed recursive-descent parser over the character list. The
fuel only bounds the nesting recursion; `jsonParse` supplies the input
length plus one, which is always sufficient (`jfuel_le_length`). -/

/-- Expect the literal characters `lit` at the head of the input and
return the rest. -/
def expectChars : List Char → List Char → Option (List Char)
  | [], cs => some cs
  | l :: ls, c :: cs => if c = l then expectChars ls cs else none
  | _ :: _, [] => none

/-- Parse the body of a string literal (after the opening quote),
returning the unescaped characters and the input after the closing
quote. -/
def parseStrBody : List Char → Option (List Char × List Char)
  | [] => none
  | c :: r =>
    if c = '"' then some ([], r)
    else if c = '\\' then
      match r with
      | [] => none
      | e :: r2 =>
        (parseStrBody r2).map fun p => (e :: p.1, p.2)
    else (parseStrBody r).map fun p => (c :: p.1, p.2)
termination_by cs => cs.length
decreasing_by all_goals simp_arith

/-- Numeric value of a digit character. -/
def digitVal (c : Char) : Nat := c.toNat - 48

/-- Fold a digit-character list into the natural number it denotes. -/
def natOfDigits (ds : List Char) : Nat :=
  ds.foldl (fun a c => 10 * a + digitVal c) 0

/-- Parse a non-empty run of decimal digits. -/
def parseNatNum (cs : List Char) : Option (Nat × List Char) :=
  let ds := cs.takeWhile (·.isDigit)
  if ds.isEmpty then none
  else some (natOfDigits ds, cs.dropWhile (·.isDigit))

mutual

/-- Parse one JSON value. The fuel decreases at each nesting or
element boundary. -/
def parseV : Nat → List Char → Option (JValue × List Char)
  | 0, _ => none
  | _ + 1, [] => none
  | f + 1, c :: r =>
    if c = 'n' then (expectChars ['u', 'l', 'l'] r).map fun r2 => (.null, r2)
    else if c = 't' then (expectChars ['r', 'u', 'e'] r).map fun r2 => (.bool true, r2)
    else if c = 'f' then (expectChars ['a', 'l', 's', 'e'] r).map fun r2 => (.bool false, r2)
    else if c = '"' then (parseStrBody r).map fun p => (.str (String.mk p.1), p.2)
    else if c = '[' then
      if r.head? = some ']' then some (.arr [], r.tail)
      else (parseElems f r).bind fun p =>
        if p.2.head? = some ']' then some (.arr p.1, p.2.tail) else none
    else if c = '{' then
      if r.head? = some '}' then some (.obj [], r.tail)
      else (parseFields f r).bind fun p =>
        if p.2.head? = some '}' then some (.obj p.1, p.2.tail) else none
    else if c = '-' then (parseNatNum r).map fun p => (.num (-(p.1 : Int)), p.2)
    else if c.isDigit then (parseNatNum (c :: r)).map fun p => (.num (p.1 : Int), p.2)
    else none

/-- Parse a non-empty comma-separated list of values. -/
def parseElems : Nat → List Char → Option (List JValue × List Char)
  | 0, _ => none
  | f + 1, cs =>
    (parseV f cs).bind fun p =>
      if p.2.head? = some ',' then
        (parseElems f p.2.tail).map fun q => (p.1 :: q.1, q.2)
      else some ([p.1], p.2)

/-- Parse a non-empty comma-separated list of `"key":value` members. -/
def parseFields : Nat → List Char → Option (List (String × JValue) × List Char)
  | 0, _ => none
  | f + 1, cs =>
    if cs.head? = some '"' then
      (parseStrBody cs.tail).bind fun pk =>
        if pk.2.head? = some ':' then
          (parseV f pk.2.tail).bind fun pv =>
            if pv.2.head? = some ',' then
              (parseFields f pv.2.tail).map fun q =>
                ((String.mk pk.1, pv.1) :: q.1, q.2)
            else some ([(String.mk pk.1, pv.1)], pv.2)
        else none
    else none

end

/-- The model of `JSON.parse`: succeeds only when the whole input is
one JSON value. -/
def jsonParse (s : String) : Option JValue :=
  match parseV (s.toList.length + 1) s.toList with
  | some (v, []) => some v
  | _ => none

/-! ## Round trip: `jsonParse (jsonStringify v) = some v` -/

/-- A continuation that cannot extend a just-parsed number: its first
character is not a digit. -/
def goodRest (rest : List Char) : Prop :=
  ∀ c, rest.head? = some c → c.isDigit = false

/-- A continuation that ends a comma-separated list: its first character
is neither a digit nor a comma. -/
def goodSep (rest : List Char) : Prop :=
  ∀ c, rest.head? = some c → c.isDigit = false ∧ c ≠ ','

theorem goodSep_goodRest {rest : List Char} (h : goodSep rest) : goodRest rest :=
  fun c hc => (h c hc).1

theorem not_digit_char {c d : Char} (hd : d.isDigit = false)
    (h : c.isDigit = true) : ¬ (c = d) := by
  intro he; subst he; rw [h] at hd; cases hd

theorem digitChar_isDigit {d : Nat} (h : d < 10) : (digitChar d).isDigit = true := by
  interval_cases d <;> decide

theorem digitVal_digitChar {d : Nat} (h : d < 10) : digitVal (digitChar d) = d := by
  interval_cases d <;> decide

theorem natChars_ne_nil (n : Nat) : natChars n ≠ [] := by
  rw [natChars]; split <;> simp

theorem natChars_digits (n : Nat) : ∀ c ∈ natChars n, c.isDigit = true := by
  induction n using Nat.strong_induction_on with
  | _ n ih =>
    rw [natChars]
    split
    · intro c hc
      simp only [List.mem_singleton] at hc
      subst hc
      exact digitChar_isDigit (by omega)
    · intro c hc
      rcases List.mem_append.mp hc with h | h
      · exact ih (n / 10) (Nat.div_lt_self (by omega) (by omega)) c h
      · simp only [List.mem_singleton] at h
        subst h
        exact digitChar_isDigit (Nat.mod_lt _ (by omega))

theorem natOfDigits_append (ds : List Char) (c : Char) :
    natOfDigits (ds ++ [c]) = 10 * natOfDigits ds + digitVal c := by
  simp [natOfDigits, List.foldl_append]

theorem natOfDigits_natChars (n : Nat) : natOfDigits (natChars n) = n := by
  induction n using Nat.strong_induction_on with
  | _ n ih =>
    rw [natChars]
    split
    · next h => simp [natOfDigits, digitVal_digitChar h]
    · next h =>
      rw [natOfDigits_append, ih (n / 10) (Nat.div_lt_self (by omega) (by omega)),
        digitVal_digitChar (Nat.mod_lt _ (by omega))]
      omega

theorem takeWhile_all_append {p : Char → Bool} {xs rest : List Char}
    (hxs : ∀ c ∈ xs, p c = true) (hr : ∀ c, rest.head? = some c → p c = false) :
    (xs ++ rest).takeWhile p = xs := by
  induction xs with
  | nil =>
    cases rest with
    | nil => rfl
    | cons c r => simp [List.takeWhile, hr c rfl]
  | cons x xs ih =>
    simp only [List.cons_append, List.takeWhile]
    rw [hxs x (List.mem_cons_self _ _)]
    simp [ih (fun c hc => hxs c (List.mem_cons_of_mem _ hc))]

theorem dropWhile_all_append {p : Char → Bool} {xs rest : List Char}
    (hxs : ∀ c ∈ xs, p c = true) (hr : ∀ c, rest.head? = some c → p c = false) :
    (xs ++ rest).dropWhile p = rest := by
  induction xs with
  | nil =>
    cases rest with
    | nil => rfl
    | cons c r => simp [List.dropWhile, hr c rfl]
  | cons x xs ih =>
    simp only [List.cons_append, List.dropWhile]
    rw [hxs x (List.mem_cons_self _ _)]
    exact ih (fun c hc => hxs c (List.mem_cons_of_mem _ hc))

theorem parseNatNum_natChars {n : Nat} {rest : List Char} (hr : goodRest rest) :
    parseNatNum (natChars n ++ rest) = some (n, rest) := by
  unfold parseNatNum
  rw [takeWhile_all_append (natChars_digits n) hr,
    dropWhile_all_append (natChars_digits n) hr]
  simp [List.isEmpty_iff, natChars_ne_nil, natOfDigits_natChars]

mutual

/-- Fuel sufficient for `parseV` to parse the stringification of `v`. -/
def jfuel : JValue → Nat
  | .null | .bool _ | .num _ | .str _ => 1
  | .arr es => 1 + efuel es
  | .obj fs => 1 + ffuel fs

/-- Fuel sufficient for `parseElems` on stringified elements. -/
def efuel : List JValue → Nat
  | [] => 0
  | e :: es => 1 + jfuel e + efuel es

/-- Fuel sufficient for `parseFields` on stringified members. -/
def ffuel : List (String × JValue) → Nat
  | [] => 0
  | f :: fs => 1 + jfuel f.2 + ffuel fs

end

theorem jfuel_pos (v : JValue) : 1 ≤ jfuel v := by
  cases v <;> simp [jfuel]

theorem parseStrBody_escList (cs rest : List Char) :
    parseStrBody (escList cs ++ '"' :: rest) = some (cs, rest) := by
  induction cs with
  | nil =>
    rw [escList, List.nil_append, parseStrBody.eq_def]
    simp
  | cons c cs ih =>
    by_cases h1 : c = '"'
    · subst h1
      rw [escList, escChar]
      simp only [if_pos rfl, List.cons_append, List.append_assoc]
      rw [parseStrBody.eq_def]
      simp [ih]
    · by_cases h2 : c = '\\'
      · subst h2
        rw [escList, escChar]
        simp only [if_neg (show ¬(('\\' : Char) = '"') by decide), if_pos rfl,
          List.cons_append, List.append_assoc]
        rw [parseStrBody.eq_def]
        simp [ih]
      · rw [escList, escChar]
        simp only [if_neg h1, if_neg h2, List.cons_append, List.nil_append]
        rw [parseStrBody.eq_def]
        simp [h1, h2, ih]

theorem stringMk_data (s : String) : String.mk s.data = s := by cases s; rfl

theorem jCharsElems_cons2 (e e2 : JValue) (es : List JValue) :
    jCharsElems (e :: e2 :: es) = jChars e ++ ',' :: jCharsElems (e2 :: es) := by
  rw [jCharsElems]
  simp

theorem jCharsFields_cons2 (kv kv2 : String × JValue) (fs : List (String × JValue)) :
    jCharsFields (kv :: kv2 :: fs) =
      (strChars kv.1 ++ ':' :: jChars kv.2) ++ ',' :: jCharsFields (kv2 :: fs) := by
  obtain ⟨k, v⟩ := kv
  rw [jCharsFields]
  simp

theorem jChars_exists_cons (v : JValue) :
    ∃ c t, jChars v = c :: t ∧ ¬(c = ']') := by
  cases v with
  | null => exact ⟨'n', _, rfl, by decide⟩
  | bool b =>
    cases b
    · exact ⟨'f', _, rfl, by decide⟩
    · exact ⟨'t', _, rfl, by decide⟩
  | num i =>
    rw [jChars, intChars]
    split
    · exact ⟨'-', _, rfl, by decide⟩
    · rcases hn : natChars i.toNat with _ | ⟨c, t⟩
      · exact absurd hn (natChars_ne_nil _)
      · refine ⟨c, t, rfl, not_digit_char (by decide) ?_⟩
        exact natChars_digits _ c (hn ▸ List.mem_cons_self _ _)
  | str s => exact ⟨'"', _, rfl, by decide⟩
  | arr es => exact ⟨'[', _, rfl, by decide⟩
  | obj fs => exact ⟨'{', _, rfl, by decide⟩

theorem jCharsElems_head (e : JValue) (es : List JValue) :
    ∃ c t, jCharsElems (e :: es) = c :: t ∧ ¬(c = ']') := by
  obtain ⟨c, t, hc, hne⟩ := jChars_exists_cons e
  cases es with
  | nil => exact ⟨c, t, by rw [jCharsElems, hc], hne⟩
  | cons e2 es2 =>
    exact ⟨c, t ++ ',' :: jCharsElems (e2 :: es2),
      by rw [jCharsElems_cons2, hc, List.cons_append], hne⟩

/-- Round trip of the `JSON.parse` model against the `JSON.stringify`
model, threading an arbitrary non-extending continuation. -/
theorem parse_round : ∀ f : Nat,
    (∀ v rest, jfuel v ≤ f → goodRest rest →
      parseV f (jChars v ++ rest) = some (v, rest)) ∧
    (∀ es rest, es ≠ [] → efuel es ≤ f → goodSep rest →
      parseElems f (jCharsElems es ++ rest) = some (es, rest)) ∧
    (∀ fs rest, fs ≠ [] → ffuel fs ≤ f → goodSep rest →
      parseFields f (jCharsFields fs ++ rest) = some (fs, rest)) := by
  intro f
  induction f with
  | zero =>
    refine ⟨fun v _ hf _ => absurd hf (by have := jfuel_pos v; omega),
      fun es _ hne hf _ => ?_, fun fs _ hne hf _ => ?_⟩
    · cases es with
      | nil => exact absurd rfl hne
      | cons e es => rw [efuel] at hf; omega
    · cases fs with
      | nil => exact absurd rfl hne
      | cons f fs => rw [ffuel] at hf; omega
  | succ f ih =>
    obtain ⟨ihV, ihE, ihF⟩ := ih
    refine ⟨?_, ?_, ?_⟩
    · -- parseV
      intro v rest hf hrest
      cases v with
      | null =>
        rw [jChars, nullChars, parseV.eq_def]
        simp [expectChars]
      | bool b =>
        cases b <;>
          (rw [jChars]
           first
           | rw [trueChars, parseV.eq_def]
           | rw [falseChars, parseV.eq_def]
           simp [expectChars])
      | num i =>
        rw [jChars, intChars]
        split
        · next hi =>
          simp only [List.cons_append]
          rw [parseV.eq_def]
          simp [parseNatNum_natChars hrest]
          omega
        · next hi =>
          rcases hn : natChars i.toNat with _ | ⟨c, t⟩
          · exact absurd hn (natChars_ne_nil _)
          · have hcd : c.isDigit = true :=
              natChars_digits _ c (hn ▸ List.mem_cons_self _ _)
            have hin : c :: (t ++ rest) = natChars i.toNat ++ rest := by
              rw [hn, List.cons_append]
            rw [List.cons_append, parseV.eq_def]
            simp only []
            rw [if_neg (not_digit_char (by decide) hcd),
              if_neg (not_digit_char (by decide) hcd),
              if_neg (not_digit_char (by decide) hcd),
              if_neg (not_digit_char (by decide) hcd),
              if_neg (not_digit_char (by decide) hcd),
              if_neg (not_digit_char (by decide) hcd),
              if_neg (not_digit_char (by decide) hcd),
              if_pos hcd]
            rw [hin, parseNatNum_natChars hrest]
            simp
            omega
      | str s =>
        rw [jChars, strChars, parseV.eq_def]
        simp only [List.cons_append, List.append_assoc, List.singleton_append]
        simp [parseStrBody_escList, String.mk]
      | arr es =>
        cases es with
        | nil =>
          rw [jChars, jCharsElems, parseV.eq_def]
          simp
        | cons e es2 =>
          obtain ⟨c0, t0, hc0, hc0ne⟩ := jCharsElems_head e es2
          have hE := ihE (e :: es2) (']' :: rest) (by simp)
            (by rw [jfuel] at hf; omega)
            (fun c hc => by simp at hc; subst hc; exact ⟨by decide, by decide⟩)
          rw [hc0] at hE
          simp only [List.cons_append] at hE
          rw [jChars, parseV.eq_def]
          simp only [List.cons_append, List.append_assoc, List.singleton_append]
          simp [hc0, hc0ne, hE]
      | obj fs =>
        cases fs with
        | nil =>
          rw [jChars, jCharsFields, parseV.eq_def]
          simp
        | cons kv fs2 =>
          have hc0 : ∃ t0, jCharsFields (kv :: fs2) = '"' :: t0 := by
            cases fs2 with
            | nil =>
              obtain ⟨k, v⟩ := kv
              rw [jCharsFields, strChars]
              exact ⟨_, rfl⟩
            | cons kv2 fs3 =>
              rw [jCharsFields_cons2, strChars]
              exact ⟨_, rfl⟩
          obtain ⟨t0, hc0⟩ := hc0
          have hF := ihF (kv :: fs2) ('}' :: rest) (by simp)
            (by rw [jfuel] at hf; omega)
            (fun c hc => by simp at hc; subst hc; exact ⟨by decide, by decide⟩)
          rw [hc0] at hF
          simp only [List.cons_append] at hF
          rw [jChars, parseV.eq_def]
          simp only [List.cons_append, List.append_assoc, List.singleton_append]
          simp [hc0, hF]
    · -- parseElems
      intro es rest hne hf hsep
      cases es with
      | nil => exact absurd rfl hne
      | cons e es2 =>
        cases es2 with
        | nil =>
          have hV := ihV e rest (by rw [efuel, efuel] at hf; omega)
            (goodSep_goodRest hsep)
          have hc : rest.head? ≠ some ',' := fun hc => (hsep ',' hc).2 rfl
          rw [jCharsElems, parseElems]
          simp [hV, hc]
        | cons e2 es3 =>
          have hV := ihV e (',' :: (jCharsElems (e2 :: es3) ++ rest))
            (by rw [efuel] at hf; omega)
            (fun c hc => by simp at hc; subst hc; decide)
          have hE := ihE (e2 :: es3) rest (by simp)
            (by rw [efuel] at hf; omega) hsep
          rw [jCharsElems_cons2, parseElems]
          simp only [List.append_assoc, List.cons_append]
          simp [hV, hE]
    · -- parseFields
      intro fs rest hne hf hsep
      cases fs with
      | nil => exact absurd rfl hne
      | cons kv fs2 =>
        obtain ⟨k, v⟩ := kv
        cases fs2 with
        | nil =>
          have hV := ihV v rest (by simp [ffuel] at hf; omega)
            (goodSep_goodRest hsep)
          have hc : rest.head? ≠ some ',' := fun hc => (hsep ',' hc).2 rfl
          have hS := parseStrBody_escList k.toList (':' :: (jChars v ++ rest))
          simp only [String.toList] at hS
          rw [jCharsFields, strChars, parseFields]
          simp only [List.cons_append, List.append_assoc, List.singleton_append,
            List.head?_cons, List.tail_cons, if_pos rfl, String.toList]
          simp [hS, hV, hc, stringMk_data]
        | cons kv2 fs3 =>
          have hV := ihV v (',' :: (jCharsFields (kv2 :: fs3) ++ rest))
            (by simp [ffuel] at hf; omega)
            (fun c hc => by simp at hc; subst hc; decide)
          have hF := ihF (kv2 :: fs3) rest (by simp)
            (by simp [ffuel] at hf ⊢; omega) hsep
          have hS := parseStrBody_escList k.toList
            (':' :: (jChars v ++ (',' :: (jCharsFields (kv2 :: fs3) ++ rest))))
          simp only [String.toList] at hS
          rw [jCharsFields_cons2, strChars, parseFields]
          simp only [List.cons_append, List.append_assoc, List.singleton_append,
            List.head?_cons, List.tail_cons, if_pos rfl, String.toList]
          simp [hS, hV, hF, stringMk_data]

mutual

theorem jfuel_le_length : ∀ v : JValue, jfuel v ≤ (jChars v).length
  | .null => by simp [jfuel, jChars, nullChars]
  | .bool b => by cases b <;> simp [jfuel, jChars, trueChars, falseChars]
  | .num i => by
    rw [jfuel, jChars]
    have : intChars i ≠ [] := by
      rw [intChars]
      split
      · simp
      · exact natChars_ne_nil _
    rcases hn : intChars i with _ | ⟨c, t⟩
    · exact absurd hn this
    · simp
  | .str s => by rw [jfuel, jChars, strChars]; simp
  | .arr es => by
    rw [jfuel, jChars]
    have := efuel_le_length es
    simp only [List.length_cons, List.length_append, List.length_singleton]
    omega
  | .obj fs => by
    rw [jfuel, jChars]
    have := ffuel_le_length fs
    simp only [List.length_cons, List.length_append, List.length_singleton]
    omega

theorem efuel_le_length : ∀ es : List JValue, efuel es ≤ (jCharsElems es).length + 1
  | [] => by simp [efuel]
  | [e] => by
    rw [efuel, efuel, jCharsElems]
    have := jfuel_le_length e
    omega
  | e :: e2 :: es => by
    rw [efuel, jCharsElems_cons2]
    have h1 := jfuel_le_length e
    have h2 := efuel_le_length (e2 :: es)
    simp only [List.length_append, List.length_cons]
    omega

theorem ffuel_le_length : ∀ fs : List (String × JValue), ffuel fs ≤ (jCharsFields fs).length + 1
  | [] => by simp [ffuel]
  | [(k, v)] => by
    rw [ffuel, ffuel, jCharsFields, strChars]
    have := jfuel_le_length v
    simp only [List.length_append, List.length_cons]
    omega
  | kv :: kv2 :: fs => by
    rw [ffuel, jCharsFields_cons2, strChars]
    have h1 := jfuel_le_length kv.2
    have h2 := ffuel_le_length (kv2 :: fs)
    simp only [List.length_append, List.length_cons]
    omega

end

theorem goodRest_nil : goodRest [] := fun c hc => by cases hc

/-- The `JSON.parse` model inverts the `JSON.stringify` model. -/
theorem jsonParse_stringify (v : JValue) : jsonParse (jsonStringify v) = some v := by
  have hlist : (jsonStringify v).toList = jChars v := rfl
  have hfuel : jfuel v ≤ (jChars v).length + 1 := by
    have := jfuel_le_length v
    omega
  have h := (parse_round ((jChars v).length + 1)).1 v [] hfuel goodRest_nil
  rw [List.append_nil] at h
  rw [jsonParse, hlist, h]

/-! ## UTF-8 (`TextEncoder` / `TextDecoder` model)

Bytes are `Nat` values below 256. The decoder is total, substituting
U+FFFD for malformed sequences the way `TextDecoder` does. -/

/-- UTF-8 encoding of one Unicode scalar value. -/
def utf8Char (c : Char) : List Nat :=
  let n := c.toNat
  if n < 0x80 then [n]
  else if n < 0x800 then [0xC0 + n / 64, 0x80 + n % 64]
  else if n < 0x10000 then
    [0xE0 + n / 4096, 0x80 + (n / 64) % 64, 0x80 + n % 64]
  else
    [0xF0 + n / 262144, 0x80 + (n / 4096) % 64, 0x80 + (n / 64) % 64, 0x80 + n % 64]

/-- UTF-8 encoding of a character list. -/
def utf8Encode : List Char → List Nat
  | [] => []
  | c :: cs => utf8Char c ++ utf8Encode cs

/-- The replacement character U+FFFD. -/
def replChar : Char := Char.ofNat 0xFFFD

/-- Is `b` a UTF-8 continuation byte? -/
def isCont (b : Nat) : Bool := 0x80 ≤ b ∧ b < 0xC0

/-- Decode one code point from lead byte `b` and following bytes `r`:
the character and the number of continuation bytes consumed. Malformed
sequences yield U+FFFD consuming nothing further, mirroring
`TextDecoder`'s substitution mode. -/
def utf8Step (b : Nat) (r : List Nat) : Char × Nat :=
  if b < 0x80 then (Char.ofNat b, 0)
  else if b < 0xC0 then (replChar, 0)
  else if b < 0xE0 then
    match r with
    | b1 :: _ =>
      if isCont b1 then (Char.ofNat ((b - 0xC0) * 64 + (b1 - 0x80)), 1)
      else (replChar, 0)
    | [] => (replChar, 0)
  else if b < 0xF0 then
    match r with
    | b1 :: b2 :: _ =>
      if isCont b1 ∧ isCont b2 then
        (Char.ofNat ((b - 0xE0) * 4096 + (b1 - 0x80) * 64 + (b2 - 0x80)), 2)
      else (replChar, 0)
    | _ => (replChar, 0)
  else if b < 0xF8 then
    match r with
    | b1 :: b2 :: b3 :: _ =>
      if isCont b1 ∧ isCont b2 ∧ isCont b3 then
        (Char.ofNat ((b - 0xF0) * 262144 + (b1 - 0x80) * 4096 +
          (b2 - 0x80) * 64 + (b3 - 0x80)), 3)
      else (replChar, 0)
    | _ => (replChar, 0)
  else (replChar, 0)

/-- Total UTF-8 decoder. -/
def utf8Decode : List Nat → List Char
  | [] => []
  | b :: r => (utf8Step b r).1 :: utf8Decode (r.drop (utf8Step b r).2)
termination_by bs => bs.length
decreasing_by simp [List.length_drop]; omega

theorem char_toNat_lt (c : Char) : c.toNat < 0x110000 := by
  rcases c.valid with h | ⟨_, h2⟩
  · exact Nat.lt_trans h (by norm_num)
  · exact h2

theorem utf8Decode_utf8Char (c : Char) (r : List Nat) :
    utf8Decode (utf8Char c ++ r) = c :: utf8Decode r := by
  have hlt := char_toNat_lt c
  rw [utf8Char]
  by_cases h1 : c.toNat < 0x80
  · rw [if_pos h1]
    simp only [List.cons_append, List.nil_append]
    have hstep : utf8Step c.toNat r = (c, 0) := by
      rw [utf8Step.eq_def, if_pos h1, Char.ofNat_toNat]
    rw [utf8Decode.eq_def]
    simp only []
    rw [hstep]
    simp
  · by_cases h2 : c.toNat < 0x800
    · rw [if_neg h1, if_pos h2]
      simp only [List.cons_append, List.nil_append]
      have hstep : utf8Step (0xC0 + c.toNat / 64) ((0x80 + c.toNat % 64) :: r) = (c, 1) := by
        rw [utf8Step.eq_def,
          if_neg (show ¬(0xC0 + c.toNat / 64 < 0x80) by omega),
          if_neg (show ¬(0xC0 + c.toNat / 64 < 0xC0) by omega),
          if_pos (show 0xC0 + c.toNat / 64 < 0xE0 by omega)]
        simp only [isCont, decide_eq_true_eq]
        rw [if_pos (show 0x80 ≤ 0x80 + c.toNat % 64 ∧ 0x80 + c.toNat % 64 < 0xC0 by omega),
          show (0xC0 + c.toNat / 64 - 0xC0) * 64 + (0x80 + c.toNat % 64 - 0x80)
            = c.toNat by omega,
          Char.ofNat_toNat]
      rw [utf8Decode.eq_def]
      simp only []
      rw [hstep]
      simp
    · by_cases h3 : c.toNat < 0x10000
      · rw [if_neg h1, if_neg h2, if_pos h3]
        simp only [List.cons_append, List.nil_append]
        have hstep : utf8Step (0xE0 + c.toNat / 4096)
            ((0x80 + c.toNat / 64 % 64) :: (0x80 + c.toNat % 64) :: r) = (c, 2) := by
          rw [utf8Step.eq_def,
            if_neg (show ¬(0xE0 + c.toNat / 4096 < 0x80) by omega),
            if_neg (show ¬(0xE0 + c.toNat / 4096 < 0xC0) by omega),
            if_neg (show ¬(0xE0 + c.toNat / 4096 < 0xE0) by omega),
            if_pos (show 0xE0 + c.toNat / 4096 < 0xF0 by omega)]
          simp only [isCont, decide_eq_true_eq]
          rw [if_pos (show (0x80 ≤ 0x80 + c.toNat / 64 % 64 ∧ 0x80 + c.toNat / 64 % 64 < 0xC0) ∧
              (0x80 ≤ 0x80 + c.toNat % 64 ∧ 0x80 + c.toNat % 64 < 0xC0) by omega),
            show (0xE0 + c.toNat / 4096 - 0xE0) * 4096 + (0x80 + c.toNat / 64 % 64 - 0x80) * 64 +
              (0x80 + c.toNat % 64 - 0x80) = c.toNat by omega,
            Char.ofNat_toNat]
        rw [utf8Decode.eq_def]
        simp only []
        rw [hstep]
        simp
      · rw [if_neg h1, if_neg h2, if_neg h3]
        simp only [List.cons_append, List.nil_append]
        have hstep : utf8Step (0xF0 + c.toNat / 262144)
            ((0x80 + c.toNat / 4096 % 64) :: (0x80 + c.toNat / 64 % 64) ::
              (0x80 + c.toNat % 64) :: r) = (c, 3) := by
          rw [utf8Step.eq_def,
            if_neg (show ¬(0xF0 + c.toNat / 262144 < 0x80) by omega),
            if_neg (show ¬(0xF0 + c.toNat / 262144 < 0xC0) by omega),
            if_neg (show ¬(0xF0 + c.toNat / 262144 < 0xE0) by omega),
            if_neg (show ¬(0xF0 + c.toNat / 262144 < 0xF0) by omega),
            if_pos (show 0xF0 + c.toNat / 262144 < 0xF8 by omega)]
          simp only [isCont, decide_eq_true_eq]
          rw [if_pos (show (0x80 ≤ 0x80 + c.toNat / 4096 % 64 ∧ 0x80 + c.toNat / 4096 % 64 < 0xC0) ∧
              (0x80 ≤ 0x80 + c.toNat / 64 % 64 ∧ 0x80 + c.toNat / 64 % 64 < 0xC0) ∧
              (0x80 ≤ 0x80 + c.toNat % 64 ∧ 0x80 + c.toNat % 64 < 0xC0) by omega),
            show (0xF0 + c.toNat / 262144 - 0xF0) * 262144 +
              (0x80 + c.toNat / 4096 % 64 - 0x80) * 4096 +
              (0x80 + c.toNat / 64 % 64 - 0x80) * 64 +
              (0x80 + c.toNat % 64 - 0x80) = c.toNat by omega,
            Char.ofNat_toNat]
        rw [utf8Decode.eq_def]
        simp only []
        rw [hstep]
        simp

/-- The UTF-8 decoder inverts the encoder. -/
theorem utf8Decode_utf8Encode (cs : List Char) :
    utf8Decode (utf8Encode cs) = cs := by
  induction cs with
  | nil =>
    rw [utf8Encode, utf8Decode.eq_def]
  | cons c cs ih => rw [utf8Encode, utf8Decode_utf8Char, ih]

/-! ## Protocol (frame codec), from `zap-client.ts` lines 119-207

`ZAP_MAGIC` is the four-byte tag `5A 41 50 01`. `encode` dispatches on
the protocol's `binary` flag; `decode` dispatches on the runtime type of
its argument (string vs `ArrayBuffer`), exactly as the source does, so
it never reads the `binary` flag. -/

/-- `const ZAP_MAGIC = new Uint8Array([0x5a, 0x41, 0x50, 0x01])`. -/
def ZAP_MAGIC : List Nat := [0x5A, 0x41, 0x50, 0x01]

/-- `enum MessageType` (zap-client.ts lines 121-129). -/
inductive MessageType where
  | handshake | handshakeResponse | request | response | stream | ping | pong
deriving Repr, DecidableEq

/-- The numeric value of each `MessageType` member. -/
def MessageType.code : MessageType → Nat
  | .handshake => 1
  | .handshakeResponse => 2
  | .request => 3
  | .response => 4
  | .stream => 5
  | .ping => 6
  | .pong => 7

/-- Wire data: an `ArrayBuffer` (byte list) or a string, the two runtime
types `encode` produces and `decode` accepts. -/
inductive WireData where
  | bin (bytes : List Nat)
  | txt (s : String)
deriving Repr

/-- `class Protocol` retains only the encode-mode flag. -/
structure Protocol where
  binary : Bool

/-- `Protocol.encode` (lines 146-162): text mode produces
`JSON.stringify(\x7bt: type, d: data\x7d)`; binary mode produces
`[magic(4)][type(1)][utf8 json payload]`. -/
def Protocol.encode (p : Protocol) (type : MessageType) (data : JValue) : WireData :=
  if p.binary then
    .bin (ZAP_MAGIC ++ [type.code] ++ utf8Encode (jsonStringify data).toList)
  else
    .txt (jsonStringify (.obj [("t", .num type.code), ("d", data)]))

/-- JavaScript property access `v[k]` on a parsed JSON value that is not
`null`: `undefined` (here `none`) unless `v` is an object with the key;
object duplicates resolve to the first binding. -/
def getField (v : JValue) (k : String) : Option JValue :=
  match v with
  | .obj fs => fs.lookup k
  | _ => none

/-- The failures `decode` can throw: the explicit
`new Error('Invalid ZAP message')` on a magic mismatch, the `SyntaxError`
escaping from `JSON.parse`, the `RangeError` from reading a type byte
past the end of the buffer, and the `TypeError` from accessing `.t` on a
parsed `null`. The specification groups all of these as `ProtocolError`. -/
inductive ProtocolFailure where
  | invalidMagic
  | jsonSyntax
  | range
  | nullAccess
deriving Repr, DecidableEq

/-- What `decode` returns: `\x7b type, payload \x7d`. In the binary
branch `type` is the raw fifth byte and `payload` the parsed JSON body;
in the text branch both fields are plain property accesses and may be
`undefined` (`none`). -/
structure DecodedFrame where
  type : Option JValue
  payload : Option JValue
deriving Repr

/-- `Protocol.decode` (lines 164-186). The `binary` flag is not read:
strings always take the JSON branch and buffers the framed branch. -/
def Protocol.decode (_p : Protocol) (data : WireData) : Except ProtocolFailure DecodedFrame :=
  match data with
  | .txt s =>
    match jsonParse s with
    | none => .error .jsonSyntax
    | some .null => .error .nullAccess
    | some v => .ok ⟨getField v "t", getField v "d"⟩
  | .bin bytes =>
    if bytes.take 4 = ZAP_MAGIC then
      match bytes.get? 4 with
      | none => .error .range
      | some tb =>
        match jsonParse (String.mk (utf8Decode (bytes.drop 5))) with
        | none => .error .jsonSyntax
        | some payload => .ok ⟨some (.num tb), some payload⟩
    else .error .invalidMagic

theorem stringMk_toList (s : String) : String.mk s.toList = s := stringMk_data s

/-- C2. Codec round trip: for every frame type and every JSON
payload, decoding an encoded frame returns the frame type's numeric tag
and the payload unchanged, both when the `Protocol` is constructed in
binary mode and when it is constructed in text mode. -/
theorem c2_codec_round_trip (b : Bool) (t : MessageType) (d : JValue) :
    (Protocol.mk b).decode ((Protocol.mk b).encode t d) =
      .ok ⟨some (.num t.code), some d⟩ := by
  cases b
  · -- text mode
    have hp := jsonParse_stringify (.obj [("t", .num t.code), ("d", d)])
    simp only [Protocol.encode, Bool.false_eq_true, if_false, Protocol.decode, hp]
    simp [getField, List.lookup]
  · -- binary mode
    have hu := utf8Decode_utf8Encode (jsonStringify d).toList
    have hp := jsonParse_stringify d
    simp only [String.toList] at hu
    simp only [Protocol.encode, if_true, Protocol.decode, ZAP_MAGIC]
    simp only [List.cons_append, List.nil_append, List.take, List.drop]
    simp [List.get?, String.toList, stringMk_data, hu, hp]

/-- C9. Decode failure conditions: a binary frame whose first four
bytes are not the magic tag decodes to the magic-mismatch error, and a
text frame that is not well-formed JSON decodes to the syntax error;
`decode` never returns a value on such inputs. -/
theorem c9_decode_failures (p : Protocol) :
    (∀ bytes : List Nat, bytes.take 4 ≠ ZAP_MAGIC →
      p.decode (.bin bytes) = .error .invalidMagic) ∧
    (∀ s : String, jsonParse s = none →
      p.decode (.txt s) = .error .jsonSyntax) := by
  constructor
  · intro bytes hb
    simp [Protocol.decode, hb]
  · intro s hs
    simp [Protocol.decode, hs]

theorem c9_decode_failures_witness :
    ([0, 1, 2, 3] : List Nat).take 4 ≠ ZAP_MAGIC ∧
    jsonParse "zap" = none ∧
    (Protocol.mk true).decode (.bin [0, 1, 2, 3]) = .error .invalidMagic ∧
    (Protocol.mk true).decode (.txt "zap") = .error .jsonSyntax :=
  ⟨by decide, rfl,
    (c9_decode_failures (Protocol.mk true)).1 [0, 1, 2, 3] (by decide),
    (c9_decode_failures (Protocol.mk true)).2 "zap" rfl⟩

/-- C10 (counterexample). The claim says every well-formed JSON text
input decodes without error; but `"null"` is well-formed JSON
(`JSON.parse` yields `null`) and the subsequent property access
`parsed.t` throws a `TypeError`, so `decode` fails on it. -/
theorem c10_null_counterexample :
    jsonParse "null" = some .null ∧
    (Protocol.mk true).decode (.txt "null") = .error .nullAccess :=
  ⟨rfl, rfl⟩

/-- C10 (amended). Text-mode decode performs no shape validation: for
every well-formed JSON input whose parsed value is not `null`, decode
returns the `t` and `d` property accesses unchanged — absent fields and
out-of-range type tags pass through as `undefined` rather than being
rejected. (On input `"null"` the property access itself throws.) -/
theorem c10_text_decode_no_validation (p : Protocol) (s : String) (v : JValue)
    (h : jsonParse s = some v) (hv : v ≠ .null) :
    p.decode (.txt s) = .ok ⟨getField v "t", getField v "d"⟩ := by
  cases v with
  | null => exact absurd rfl hv
  | bool b => simp [Protocol.decode, h]
  | num n => simp [Protocol.decode, h]
  | str s2 => simp [Protocol.decode, h]
  | arr es => simp [Protocol.decode, h]
  | obj fs => simp [Protocol.decode, h]

theorem c10_text_decode_no_validation_witness :
    (Protocol.mk true).decode (.txt (jsonStringify (.obj [("x", .num 1)]))) =
      .ok ⟨none, none⟩ :=
  c10_text_decode_no_validation (Protocol.mk true) _ (.obj [("x", .num 1)])
    (jsonParse_stringify _) (by intro h; cases h)

/-! ## JavaScript `Map` model

`pendingRequests` is a `Map<string, entry>`; an association list with
`Map` semantics: `set` replaces an existing binding in place or appends,
`delete` removes the binding, `get` is key lookup. -/

/-- `Map.get`. -/
def mapGet (m : List (String × α)) (k : String) : Option α := m.lookup k

/-- `Map.set`. -/
def mapSet (m : List (String × α)) (k : String) (v : α) : List (String × α) :=
  if (m.lookup k).isSome then m.map (fun p => if p.1 = k then (k, v) else p)
  else m ++ [(k, v)]

/-- `Map.delete`: removes the binding of `k`, keeping order. -/
def mapDelete : List (String × α) → String → List (String × α)
  | [], _ => []
  | p :: m, k => if p.1 = k then mapDelete m k else p :: mapDelete m k

theorem lookup_mapDelete_self (m : List (String × α)) (k : String) :
    mapGet (mapDelete m k) k = none := by
  induction m with
  | nil => rfl
  | cons p m ih =>
    simp only [mapGet, mapDelete] at ih ⊢
    by_cases h : p.1 = k
    · simp [h, ih]
    · have h2 : (k == p.1) = false := by
        simp only [beq_eq_false_iff_ne, ne_eq]
        exact fun he => h he.symm
      simp [h, List.lookup, h2, ih]

theorem lookup_mapDelete_ne (m : List (String × α)) (k k' : String) (h : ¬ (k' = k)) :
    mapGet (mapDelete m k) k' = mapGet m k' := by
  induction m with
  | nil => rfl
  | cons p m ih =>
    simp only [mapGet, mapDelete] at ih ⊢
    by_cases hp : p.1 = k
    · have h2 : (k' == p.1) = false := by
        simp only [beq_eq_false_iff_ne, ne_eq]
        exact fun he => h (he.trans hp)
      have h3 : (k' == k) = false := by
        simp only [beq_eq_false_iff_ne, ne_eq]
        exact h
      simp [hp, List.lookup, h2, h3, ih]
    · simp [hp, List.lookup, ih]

/-! ## ZapClient (Endpoint Session), from `zap-client.ts` lines 243-484

The client is modelled as a state machine. The state carries the fields
of `ZapClient` that the handlers read or write; the pending-request
entry type is a parameter `α` standing for the `\x7bresolve, reject,
timeout\x7d` closure record. Each transition function is the synchronous
body of one source handler and returns the successor state together with
the list of observable effects it performs, in program order. The
transport object itself (`this.ws`) is not part of the state: the model
identifies "transport open" with the `connected` state, which is the
only component of `isConnected` the claims depend on. -/

/-- `ConnectionState` (line 48). -/
inductive ConnState where
  | disconnected | connecting | connected | reconnecting
deriving Repr, DecidableEq

/-- A `Response.error` code: `number | string`. -/
inductive ErrCode where
  | num (n : Int)
  | str (s : String)
deriving Repr, DecidableEq

/-- `ZapResponse.error`: `\x7b code, message, data? \x7d`. -/
structure RespError where
  code : ErrCode
  message : String
  data : Option JValue
deriving Repr

/-- `ZapResponse`: `\x7b id, result?, error? \x7d`. -/
structure ZapResponse where
  id : String
  result : Option JValue
  error : Option RespError
deriving Repr

/-- The errors the client constructs (`ZapError`, `ConnectionError`,
`TimeoutError`, lines 213-237): `ConnectionError` and `TimeoutError`
carry fixed codes, `ZapError` carries the peer's code and message. -/
inductive ClientError where
  | connectionError (message : String)
  | timeoutError (message : String)
  | zapError (message : String) (code : ErrCode)
deriving Repr, DecidableEq

/-- `ZapClientOptions` after defaulting (constructor lines 273-285). -/
structure ZapOptions where
  timeout : Nat := 30000
  autoReconnect : Bool := true
  reconnectInterval : Nat := 1000
  maxReconnectAttempts : Nat := 5

/-- The defaulted options of a client constructed with no overrides. -/
def defaultZapOptions : ZapOptions := {}

/-- The mutable fields of `ZapClient` the handlers touch. `reconnectTimer`
holds the delay of the currently scheduled reconnect timer, if one is
pending. -/
structure CState (α : Type) where
  connState : ConnState
  pending : List (String × α)
  reconnectAttempts : Nat
  reconnectTimer : Option Nat
  url : Option String
deriving Repr

/-- Observable effects of a transition, in program order: event
emissions (payloads abstracted to the event name), settling a pending
entry's promise, scheduling a reconnect timer with its delay, closing
the transport, and sending a frame. -/
inductive Effect (α : Type) where
  | emit (event : String)
  | rejectPending (entry : α) (err : ClientError)
  | resolvePending (entry : α) (result : Option JValue)
  | schedule (delay : Nat)
  | closeTransport
  | sendFrame
deriving Repr

/-- Is this effect a settlement (reject) of some pending entry? -/
def Effect.isReject : Effect α → Bool
  | .rejectPending _ _ => true
  | _ => false

/-- `handleResponse` (lines 438-450): look up the pending entry for the
response's correlation id; absent, return doing nothing; present,
clear its timer, delete it, and reject with a `ZapError` carrying the
response error's code and message when `response.error` is set, else
resolve with `response.result`. -/
def handleResponse (resp : ZapResponse) (s : CState α) : CState α × List (Effect α) :=
  match mapGet s.pending resp.id with
  | none => (s, [])
  | some e =>
    ({ s with pending := mapDelete s.pending resp.id },
      match resp.error with
      | some err => [.rejectPending e (.zapError err.message err.code)]
      | none => [.resolvePending e resp.result])

/-- `scheduleReconnect` (lines 462-483): at or above the attempt
ceiling, emit an error event and stop; otherwise enter `reconnecting`,
increment the attempt counter, and schedule the retry timer after
`reconnectInterval * 2 ^ (attempts - 1)` with the incremented counter. -/
def scheduleReconnect (o : ZapOptions) (s : CState α) : CState α × List (Effect α) :=
  if s.reconnectAttempts ≥ o.maxReconnectAttempts then
    (s, [.emit "error"])
  else
    let attempts := s.reconnectAttempts + 1
    let delay := o.reconnectInterval * 2 ^ (attempts - 1)
    ({ s with
        connState := ConnState.reconnecting
        reconnectAttempts := attempts
        reconnectTimer := some delay },
      [.schedule delay])

/-- `ws.onclose` (lines 352-360): record whether the session was
connected, drop to `disconnected`, emit the disconnect event, and only
when it was connected with auto-reconnect enabled and a stored url,
run `scheduleReconnect`. Pending requests are not touched. -/
def onClose (o : ZapOptions) (s : CState α) : CState α × List (Effect α) :=
  let wasConnected := s.connState = .connected
  let s1 := { s with connState := ConnState.disconnected }
  if wasConnected ∧ o.autoReconnect = true ∧ s.url.isSome then
    ((scheduleReconnect o s1).1, .emit "disconnect" :: (scheduleReconnect o s1).2)
  else
    (s1, [.emit "disconnect"])

/-- `close()` (lines 369-386): cancel any scheduled reconnect, close the
transport, reject every pending request with the connection-closed
error, clear the table, and set `disconnected`. -/
def closeClient (s : CState α) : CState α × List (Effect α) :=
  ({ s with connState := .disconnected, pending := [], reconnectTimer := none },
    .closeTransport ::
      s.pending.map (fun p => .rejectPending p.2 (.connectionError "Connection closed")))

/-- `request()` guard and registration (lines 388-410): throw the
connection error when not connected; otherwise register the pending
entry under the fresh id and send the request frame. -/
def requestCall (id : String) (e : α) (s : CState α) :
    Except ClientError (CState α × List (Effect α)) :=
  if s.connState = .connected then
    .ok ({ s with pending := mapSet s.pending id e }, [.sendFrame])
  else
    .error (.connectionError "Not connected")

/-- The per-request timeout callback (lines 397-400): delete the entry
and reject with the timeout error (rejecting an already-settled promise
is a no-op, so the reject effect is only observable while the entry is
still present). -/
def requestTimeoutFire (id : String) (method : String) (s : CState α) :
    CState α × List (Effect α) :=
  match mapGet s.pending id with
  | none => ({ s with pending := mapDelete s.pending id }, [])
  | some e =>
    ({ s with pending := mapDelete s.pending id },
      [.rejectPending e (.timeoutError ("Request timeout: " ++ method))])

/-- `connect()` entry (lines 291-298): throw when already connected or
connecting, else store the url and enter `connecting`. -/
def connectStart (url : String) (s : CState α) :
    Except ClientError (CState α × List (Effect α)) :=
  if s.connState = .connected ∨ s.connState = .connecting then
    .error (.connectionError "Already connected or connecting")
  else
    .ok ({ s with url := some url, connState := .connecting }, [])

/-- The accepted-handshake branch (lines 326-331): enter `connected`,
reset the attempt counter, emit the connect event. -/
def handshakeAccepted (s : CState α) : CState α × List (Effect α) :=
  ({ s with connState := .connected, reconnectAttempts := 0 }, [.emit "connect"])

/-- `ws.onerror` (lines 343-350): emit the error event; when still
`connecting`, drop to `disconnected` (the connect promise rejects). -/
def onWsError (s : CState α) : CState α × List (Effect α) :=
  if s.connState = .connecting then
    ({ s with connState := .disconnected }, [.emit "error"])
  else
    (s, [.emit "error"])

/-- The reconnect timer callback (lines 473-482): when a url is stored,
call `connect` on it again; the callback's `catch` swallows a rejected
connect (the source comment reads "Will retry via onclose handler"). -/
def reconnectTimerFire (s : CState α) : CState α × List (Effect α) :=
  match s.url with
  | none => ({ s with reconnectTimer := none }, [])
  | some u =>
    match connectStart u { s with reconnectTimer := none } with
    | .ok (s2, effs) => (s2, effs)
    | .error _ => ({ s with reconnectTimer := none }, [])

/-- The tail of the reconnect timer callback when the awaited `connect`
succeeds (line 477): emit the reconnect event. -/
def reconnectSucceeded (s : CState α) : CState α × List (Effect α) :=
  let (s1, effs) := handshakeAccepted s
  (s1, effs ++ [.emit "reconnect"])

/-- Does the effect list emit the named event? -/
def emitCount (effs : List (Effect α)) (name : String) : Nat :=
  effs.countP (fun e => match e with | .emit n => n == name | _ => false)

/-- Does the effect list schedule a reconnect timer? -/
def schedulesReconnect (effs : List (Effect α)) : Bool :=
  effs.any (fun e => match e with | .schedule _ => true | _ => false)

/-- C1. Response correlation: `handleResponse` affects exactly the
pending entry whose key equals the response's id — resolving it with
the response's result or rejecting it with a `ZapError` carrying the
response error's code and message — and removes that entry; every other
key's binding is unchanged; and a response matching no pending entry
leaves the state untouched and performs no effect at all. -/
theorem c1_handle_response_correlation {α : Type} (resp : ZapResponse) (s : CState α) :
    (∀ k, ¬(k = resp.id) →
      mapGet (handleResponse resp s).1.pending k = mapGet s.pending k) ∧
    (mapGet s.pending resp.id = none → handleResponse resp s = (s, [])) ∧
    (∀ e, mapGet s.pending resp.id = some e →
      mapGet (handleResponse resp s).1.pending resp.id = none ∧
      (handleResponse resp s).1.connState = s.connState ∧
      (handleResponse resp s).2 =
        [match resp.error with
         | some err => Effect.rejectPending e (.zapError err.message err.code)
         | none => Effect.resolvePending e resp.result]) := by
  rcases hm : mapGet s.pending resp.id with _ | e0
  · refine ⟨fun k _ => ?_, fun _ => ?_, fun e he => ?_⟩
    · simp [handleResponse, hm]
    · simp [handleResponse, hm]
    · cases he
  · refine ⟨fun k hk => ?_, fun hn => ?_, fun e he => ?_⟩
    · simp only [handleResponse, hm]
      exact lookup_mapDelete_ne s.pending resp.id k hk
    · cases hn
    · injection he with he
      subst he
      refine ⟨?_, ?_, ?_⟩
      · simp only [handleResponse, hm]
        exact lookup_mapDelete_self s.pending resp.id
      · simp only [handleResponse, hm]
      · simp only [handleResponse, hm]
        cases resp.error <;> rfl

/-- Concrete state for the C1 witness: two in-flight requests. -/
def c1State : CState Nat :=
  ⟨ConnState.connected, [("A", 1), ("B", 2)], 0, none, some "ws://localhost:9999"⟩

/-- A response for id `"B"` carrying a remote error. -/
def c1Response : ZapResponse := ⟨"B", none, some ⟨ErrCode.num 42, "boom", none⟩⟩

/-- A response whose id matches no pending entry (e.g. arriving after
that request's timeout already removed the entry). -/
def c1LateResponse : ZapResponse := ⟨"C", some (JValue.num 7), none⟩

theorem c1_handle_response_correlation_witness :
    mapGet (handleResponse c1Response c1State).1.pending "A" = mapGet c1State.pending "A" ∧
    mapGet (handleResponse c1Response c1State).1.pending "B" = none ∧
    (handleResponse c1Response c1State).2 =
      [Effect.rejectPending 2 (.zapError "boom" (.num 42))] ∧
    handleResponse c1LateResponse c1State = (c1State, []) :=
  have h := c1_handle_response_correlation c1Response c1State
  have h2 := c1_handle_response_correlation c1LateResponse c1State
  ⟨h.1 "A" (by decide), (h.2.2 2 rfl).1, (h.2.2 2 rfl).2.2, h2.2.1 rfl⟩

/-- C3 (counterexample). A Connected session with one pending request
that suffers an unexpected transport close transitions to Reconnecting
with its pending table intact and rejects nothing — so "the
pending-request table is non-empty only while Connected" and "every
outstanding pending request is rejected immediately" are both false on
the `ws.onclose` path. -/
def c3State : CState Unit :=
  ⟨ConnState.connected, [("A", ())], 0, none, some "ws://localhost:9999"⟩

theorem c3_counterexample :
    (onClose defaultZapOptions c3State).1.connState = ConnState.reconnecting ∧
    (onClose defaultZapOptions c3State).1.pending = [("A", ())] ∧
    (onClose defaultZapOptions c3State).2.all (fun e => !(e.isReject)) = true :=
  ⟨rfl, rfl, rfl⟩

/-- C3 (amended). Pending requests are rejected en masse only by the
user-facing `close()`, which rejects every outstanding entry with the
connection-closed error, clears the table and disconnects; the
`ws.onclose` transition (with or without reconnection) leaves the
pending table untouched and rejects nothing, each entry failing later
through its own timeout; and new requests can be registered only while
Connected. -/
theorem c3_pending_rejection_amended {α : Type} (o : ZapOptions) (s : CState α) :
    ((closeClient s).1.pending = [] ∧
     (closeClient s).1.connState = ConnState.disconnected ∧
     (closeClient s).1.reconnectTimer = none ∧
     (closeClient s).2 = Effect.closeTransport ::
        s.pending.map (fun p =>
          Effect.rejectPending p.2 (.connectionError "Connection closed"))) ∧
    ((onClose o s).1.pending = s.pending ∧
     (onClose o s).2.all (fun e => !(e.isReject)) = true) ∧
    (∀ id e, ¬(s.connState = ConnState.connected) →
      requestCall id e s = .error (.connectionError "Not connected")) := by
  refine ⟨⟨rfl, rfl, rfl, rfl⟩, ⟨?_, ?_⟩, fun id e h => ?_⟩
  · rw [onClose]
    split
    · rw [scheduleReconnect]
      split <;> rfl
    · rfl
  · rw [onClose]
    split
    · rw [scheduleReconnect]
      split <;> rfl
    · rfl
  · simp [requestCall, h]

theorem c3_pending_rejection_amended_witness :
    (closeClient c3State).1.pending = [] ∧
    (closeClient c3State).2 = [Effect.closeTransport,
      Effect.rejectPending () (.connectionError "Connection closed")] ∧
    requestCall "X" () (closeClient c3State).1 =
      .error (.connectionError "Not connected") :=
  have h := c3_pending_rejection_amended defaultZapOptions c3State
  have h2 := c3_pending_rejection_amended defaultZapOptions (closeClient c3State).1
  ⟨h.1.1, h.1.2.2.2, h2.2.2 "X" () (by decide)⟩

/-- C4. Reconnection backoff: on an unexpected close of a Connected
session with auto-reconnect on and a stored url, below the attempt
ceiling the counter is incremented first and the retry timer is
scheduled with delay exactly `reconnectInterval * 2 ^ (n - 1)` for the
new counter value `n`, with no error event; at the ceiling nothing is
scheduled, the counter stays, and the error event is emitted exactly
once. The default ceiling is 5. -/
theorem c4_reconnect_backoff {α : Type} (o : ZapOptions) (s : CState α)
    (hconn : s.connState = ConnState.connected)
    (hauto : o.autoReconnect = true)
    (hurl : s.url.isSome = true) :
    defaultZapOptions.maxReconnectAttempts = 5 ∧
    (s.reconnectAttempts < o.maxReconnectAttempts →
      (onClose o s).1.reconnectAttempts = s.reconnectAttempts + 1 ∧
      (onClose o s).2 = [Effect.emit "disconnect",
        Effect.schedule (o.reconnectInterval * 2 ^ (s.reconnectAttempts + 1 - 1))] ∧
      (onClose o s).1.reconnectTimer =
        some (o.reconnectInterval * 2 ^ (s.reconnectAttempts + 1 - 1)) ∧
      emitCount (onClose o s).2 "error" = 0) ∧
    (s.reconnectAttempts ≥ o.maxReconnectAttempts →
      (onClose o s).1.reconnectAttempts = s.reconnectAttempts ∧
      (onClose o s).2 = [Effect.emit "disconnect", Effect.emit "error"] ∧
      schedulesReconnect (onClose o s).2 = false ∧
      emitCount (onClose o s).2 "error" = 1) := by
  refine ⟨rfl, fun hlt => ?_, fun hge => ?_⟩
  · have hcond : s.connState = ConnState.connected ∧ o.autoReconnect = true ∧
        s.url.isSome = true := ⟨hconn, hauto, hurl⟩
    rw [onClose, if_pos hcond, scheduleReconnect,
      if_neg (show ¬(s.reconnectAttempts ≥ o.maxReconnectAttempts) by omega)]
    exact ⟨rfl, rfl, rfl, rfl⟩
  · have hcond : s.connState = ConnState.connected ∧ o.autoReconnect = true ∧
        s.url.isSome = true := ⟨hconn, hauto, hurl⟩
    rw [onClose, if_pos hcond, scheduleReconnect, if_pos hge]
    exact ⟨rfl, rfl, rfl, rfl⟩

/-- A Connected session two failed attempts in (for the C4 witness). -/
def c4State : CState Unit :=
  ⟨ConnState.connected, [], 2, none, some "ws://localhost:9999"⟩

/-- A Connected session at the default attempt ceiling. -/
def c4CeilState : CState Unit :=
  ⟨ConnState.connected, [], 5, none, some "ws://localhost:9999"⟩

theorem c4_reconnect_backoff_witness :
    (onClose defaultZapOptions c4State).2 =
      [Effect.emit "disconnect", Effect.schedule 4000] ∧
    (onClose defaultZapOptions c4CeilState).2 =
      [Effect.emit "disconnect", Effect.emit "error"] ∧
    emitCount (onClose defaultZapOptions c4CeilState).2 "error" = 1 :=
  have h := c4_reconnect_backoff defaultZapOptions c4State rfl rfl rfl
  have h2 := c4_reconnect_backoff defaultZapOptions c4CeilState rfl rfl rfl
  ⟨(h.2.1 (by decide)).2.1, (h2.2.2 (by decide)).2.1, (h2.2.2 (by decide)).2.2.2⟩

/-- C5 (code bug). The reconnect recurrence is broken: after the first
backoff attempt's `connect` fails (transport error while Connecting,
then transport close), the close handler sees `wasConnected = false`
and schedules nothing — the next backoff attempt never happens, even
though the `catch` in `scheduleReconnect` reads "Will retry via onclose
handler". The trace below evaluates the code on that scenario: the
first unexpected close schedules attempt 1 with delay 1000; the timer
fires and `connect` puts the session in Connecting; the transport error
drops it to Disconnected; the final close emits only the disconnect
event, leaves no timer scheduled, and stays Disconnected. A successful
attempt does emit the reconnect event (`reconnectSucceeded`). -/
def c5State : CState Unit :=
  ⟨ConnState.connected, [], 0, none, some "ws://localhost:9999"⟩

theorem c5_failed_reconnect_not_retried :
    (onClose defaultZapOptions c5State).2 =
      [Effect.emit "disconnect", Effect.schedule 1000] ∧
    (reconnectTimerFire (onClose defaultZapOptions c5State).1).1.connState =
      ConnState.connecting ∧
    (onWsError (reconnectTimerFire (onClose defaultZapOptions c5State).1).1).1.connState =
      ConnState.disconnected ∧
    (onClose defaultZapOptions
        (onWsError (reconnectTimerFire (onClose defaultZapOptions c5State).1).1).1).2 =
      [Effect.emit "disconnect"] ∧
    (onClose defaultZapOptions
        (onWsError (reconnectTimerFire (onClose defaultZapOptions c5State).1).1).1).1.reconnectTimer
      = none ∧
    (onClose defaultZapOptions
        (onWsError (reconnectTimerFire (onClose defaultZapOptions c5State).1).1).1).1.connState
      = ConnState.disconnected ∧
    (∀ s : CState Unit, (reconnectSucceeded s).2 = [Effect.emit "connect", Effect.emit "reconnect"]) :=
  ⟨rfl, rfl, rfl, rfl, rfl, rfl, fun _ => rfl⟩

/-! ## ZapExtensionClient (Session Manager), `zap-client.ts` lines 518-789

Only the endpoint-record bookkeeping of `connectMcp` matters for the
claims; the per-connection `ZapClient` object inside each
`McpConnection` is abstracted away. -/

/-- `ToolInfo` (lines 50-54). -/
structure ToolInfo where
  name : String
  description : Option String
  inputSchema : Option String
deriving Repr, DecidableEq

/-- `McpInfo` (lines 56-62). -/
structure McpInfo where
  id : String
  name : String
  url : String
  connected : Bool
  tools : List ToolInfo
deriving Repr, DecidableEq

/-- `McpConnection` (lines 490-494) minus the client object. -/
structure McpConnection where
  info : McpInfo
  connected : Bool
deriving Repr, DecidableEq

/-- The manager's `mcpConnections` map, keyed by record id. -/
def McpConns := List (String × McpConnection)

/-- The already-connected check of `connectMcp` (lines 596-601):
the first connection whose `info.url` equals the target and whose
`connected` flag is set. -/
def findExistingMcp (url : String) (m : McpConns) : Option McpConnection :=
  (m.map Prod.snd).find? (fun c => c.info.url == url && c.connected)

/-- `connectMcp` split at its suspension points: the
already-connected check runs against the manager state at call time
(`checkState`), while the record store — which in the source happens
only after `await client.connect(url)` and `await client.listTools()` —
runs against the (possibly different) state current at that later time
(`storeState`). A call that finds an existing record returns it and
stores nothing. `newId` stands for the generated record id and `tools`
for the fetched tool snapshot. -/
def connectMcpPhased (url newId : String) (tools : List ToolInfo)
    (checkState storeState : McpConns) : McpInfo × McpConns :=
  match findExistingMcp url checkState with
  | some c => (c.info, storeState)
  | none =>
    let info : McpInfo := ⟨newId, "MCP@" ++ url, url, true, tools⟩
    (info, mapSet storeState newId ⟨info, true⟩)

/-- `connectMcp` when it runs without interleaving: check and store
against the same state. -/
def connectMcpSeq (url newId : String) (tools : List ToolInfo)
    (m : McpConns) : McpInfo × McpConns :=
  connectMcpPhased url newId tools m m

/-- How many Connected records the manager holds for `url`. -/
def connectedCountForUrl (url : String) (m : McpConns) : Nat :=
  (m.map Prod.snd).countP (fun c => c.info.url == url && c.connected)

/-! ## CDPBridgeServer (Command Router), `cdp-bridge-server.ts`

A `BrowserCommand` is `\x7b action, ...rest \x7d`; `rest` is modelled
as a JavaScript object literal: an association list whose values may be
`undefined` (`none`). -/

/-- An object literal; a `none` value is an `undefined` member. -/
def Params := List (String × Option JValue)

/-- Property access `rest[k]`: `undefined` when absent or explicitly
`undefined`. -/
def pget (rest : Params) (k : String) : Option JValue :=
  (rest.lookup k).bind id

/-- JavaScript truthiness of a defined JSON value. -/
def truthy : JValue → Bool
  | .null => false
  | .bool b => b
  | .num n => n != 0
  | .str s => s != ""
  | .arr _ => true
  | .obj _ => true

/-- JavaScript truthiness of a possibly-`undefined` value. -/
def truthyOpt : Option JValue → Bool
  | none => false
  | some v => truthy v

/-- `a || b` where `a` may be `undefined` and `b` is a literal. -/
def jsOrV (a : Option JValue) (b : JValue) : JValue :=
  match a with
  | some v => if truthy v then v else b
  | none => b

/-- `a || b` where both operands may be `undefined`. -/
def jsOr2 (a b : Option JValue) : Option JValue :=
  match a with
  | some v => if truthy v then some v else b
  | none => b

/-- `rest.selector || rest.ref` (the "selector and ref are
interchangeable" rule). -/
def selOf (rest : Params) : Option JValue :=
  jsOr2 (pget rest "selector") (pget rest "ref")

/-- One underlying call as handed to `sendRaw(method, params)`;
`params = none` when the argument is omitted. -/
structure RawCall where
  method : String
  params : Option Params

/-- Where `browser(command)` routes an action: one plain `sendRaw`
call, the screenshot call with its local post-processing, or a local
result with no underlying call (`wait`, `status`). -/
inductive Route where
  | raw (c : RawCall)
  | screenshotCall (c : RawCall) (rest : Params)
  | waitLocal (result : JValue)
  | statusLocal

/-- The action names that appear as `case` labels in the `browser`
switch (cdp-bridge-server.ts lines 141-297). -/
def knownActions : List String :=
  ["navigate", "navigate_back", "go_back", "navigate_forward", "go_forward",
   "reload", "url", "title", "content", "screenshot", "snapshot",
   "click", "dblclick", "double_click", "hover", "type", "fill", "clear",
   "press_key", "press", "select_option", "check", "uncheck", "evaluate",
   "wait", "wait_for_load", "tabs", "list_tabs", "new_tab", "close_tab",
   "select_tab", "console_messages", "console", "network_requests", "status"]

/-- The `browser` action translation table (lines 138-301): each known
action maps to its canonical underlying call; anything else falls
through to `sendRaw(action, rest)` verbatim. -/
def browserRoute (action : String) (rest : Params) : Route :=
  if action = "navigate" then
    .raw ⟨"Page.navigate", some [("url", pget rest "url")]⟩
  else if action = "navigate_back" ∨ action = "go_back" then
    .raw ⟨"Page.goBack", none⟩
  else if action = "navigate_forward" ∨ action = "go_forward" then
    .raw ⟨"Page.goForward", none⟩
  else if action = "reload" then
    .raw ⟨"Page.reload", none⟩
  else if action = "url" then
    .raw ⟨"Runtime.evaluate", some [("expression", some (.str "window.location.href")),
      ("returnByValue", some (.bool true))]⟩
  else if action = "title" then
    .raw ⟨"Runtime.evaluate", some [("expression", some (.str "document.title")),
      ("returnByValue", some (.bool true))]⟩
  else if action = "content" then
    .raw ⟨"Runtime.evaluate", some [("expression",
      some (.str "document.documentElement.outerHTML")),
      ("returnByValue", some (.bool true))]⟩
  else if action = "screenshot" then
    .screenshotCall ⟨"hanzo.screenshot", some [("format", some (jsOrV (pget rest "format") (.str "png"))),
      ("fullPage", pget rest "fullPage")]⟩ rest
  else if action = "snapshot" then
    .raw ⟨"Accessibility.getFullAXTree", none⟩
  else if action = "click" then
    .raw ⟨"hanzo.click", some [("selector", selOf rest)]⟩
  else if action = "dblclick" ∨ action = "double_click" then
    .raw ⟨"hanzo.dblclick", some [("selector", selOf rest)]⟩
  else if action = "hover" then
    .raw ⟨"hanzo.hover", some [("selector", selOf rest)]⟩
  else if action = "type" then
    .raw ⟨"hanzo.type", some [("selector", selOf rest), ("text", pget rest "text")]⟩
  else if action = "fill" then
    .raw ⟨"hanzo.fill", some [("selector", selOf rest),
      ("value", jsOr2 (pget rest "value") (pget rest "text"))]⟩
  else if action = "clear" then
    .raw ⟨"hanzo.clear", some [("selector", selOf rest)]⟩
  else if action = "press_key" ∨ action = "press" then
    .raw ⟨"Input.dispatchKeyEvent", some [("type", some (.str "keyDown")),
      ("key", pget rest "key")]⟩
  else if action = "select_option" then
    .raw ⟨"hanzo.select", some [("selector", selOf rest), ("value", pget rest "value")]⟩
  else if action = "check" then
    .raw ⟨"hanzo.check", some [("selector", selOf rest)]⟩
  else if action = "uncheck" then
    .raw ⟨"hanzo.uncheck", some [("selector", selOf rest)]⟩
  else if action = "evaluate" then
    .raw ⟨"Runtime.evaluate", some [("expression",
      jsOr2 (jsOr2 (pget rest "code") (pget rest "function")) (pget rest "expression")),
      ("returnByValue", some (.bool true))]⟩
  else if action = "wait" then
    .waitLocal (.obj [("waited", jsOrV (pget rest "timeout") (.num 1))])
  else if action = "wait_for_load" then
    .raw ⟨"Page.waitForLoadState", some [("state", some (jsOrV (pget rest "state") (.str "load")))]⟩
  else if action = "tabs" ∨ action = "list_tabs" then
    .raw ⟨"Target.getTargets", none⟩
  else if action = "new_tab" then
    .raw ⟨"Target.createTarget", some [("url", some (jsOrV (pget rest "url") (.str "about:blank")))]⟩
  else if action = "close_tab" then
    .raw ⟨"Target.closeTarget", some [("targetId", pget rest "tabId")]⟩
  else if action = "select_tab" then
    .raw ⟨"Target.activateTarget", some [("targetId", pget rest "tabId")]⟩
  else if action = "console_messages" ∨ action = "console" then
    .raw ⟨"Console.getMessages", none⟩
  else if action = "network_requests" then
    .raw ⟨"Network.getResponseBodies", none⟩
  else if action = "status" then
    .statusLocal
  else
    .raw ⟨action, some rest⟩

/-- The errors a routed command can surface: the no-agent guard of
`sendRaw`, its 30s command timeout, an error reply from the agent, and
a JS `TypeError` from the screenshot post-processing. -/
inductive BridgeError where
  | noAgent
  | commandTimeout
  | remote (message : String)
  | typeError
deriving Repr, DecidableEq

/-- Base64 value of one character; `none` for non-alphabet characters
(`Buffer.from(s, 'base64')` skips them). -/
def b64Val (c : Char) : Option Nat :=
  if 'A' ≤ c ∧ c ≤ 'Z' then some (c.toNat - 65)
  else if 'a' ≤ c ∧ c ≤ 'z' then some (c.toNat - 97 + 26)
  else if '0' ≤ c ∧ c ≤ '9' then some (c.toNat - 48 + 52)
  else if c = '+' then some 62
  else if c = '/' then some 63
  else none

/-- Reassemble 6-bit groups into bytes, three per quartet, truncating
the final partial group the way base64 padding does. -/
def b64Groups : List Nat → List Nat
  | a :: b :: c :: d :: rest =>
    (a * 4 + b / 16) :: ((b % 16) * 16 + c / 4) :: ((c % 4) * 64 + d) :: b64Groups rest
  | [a, b, c] => [a * 4 + b / 16, (b % 16) * 16 + c / 4]
  | [a, b] => [a * 4 + b / 16]
  | _ => []

/-- `Buffer.from(s, 'base64')`. -/
def base64Decode (s : String) : List Nat :=
  b64Groups (s.toList.filterMap b64Val)

/-- The screenshot post-processing (lines 181-186): when
`rest.filename` is truthy the code reads `screenshot.data` — a
`TypeError` if the call resolved to `null`/`undefined` — and when that
is truthy too, decodes the base64 payload, writes it to the file, and
answers `\x7bsaved, bytes\x7d`; on every falsy guard the raw call
result is returned unchanged and nothing is written. -/
def screenshotPost (rest : Params) (shot : Option JValue) :
    List (String × List Nat) × Except BridgeError (Option JValue) :=
  if truthyOpt (pget rest "filename") then
    match shot with
    | none => ([], .error .typeError)
    | some .null => ([], .error .typeError)
    | some v =>
      match getField v "data" with
      | none => ([], .ok shot)
      | some dv =>
        if truthy dv then
          match pget rest "filename", dv with
          | some (.str name), .str b64 =>
            ([(name, base64Decode b64)],
              .ok (some (.obj [("saved", .str name),
                ("bytes", .num ((base64Decode b64).length : Int))])))
          | _, _ => ([], .error .typeError)
        else ([], .ok shot)
  else ([], .ok shot)

/-- One `browser(command)` invocation: the underlying calls it issues
(each a `sendRaw` that fails with the no-agent error when the live
connection set is empty), the local file writes it performs, and the
result it returns. `reply` is the agent's settlement of the issued
call; `clientCount` is `this.clients.size` and `port` the constructor
port. -/
structure RunResult where
  calls : List RawCall
  writes : List (String × List Nat)
  result : Except BridgeError (Option JValue)

/-- Execute `browser(\x7baction, ...rest\x7d)` against the routing
table. -/
def runBrowser (clientCount port : Nat) (action : String) (rest : Params)
    (reply : Except BridgeError (Option JValue)) : RunResult :=
  match browserRoute action rest with
  | .raw c =>
    if clientCount = 0 then ⟨[], [], .error .noAgent⟩ else ⟨[c], [], reply⟩
  | .screenshotCall c r =>
    if clientCount = 0 then ⟨[], [], .error .noAgent⟩
    else
      match reply with
      | .error e => ⟨[c], [], .error e⟩
      | .ok shot =>
        let post := screenshotPost r shot
        ⟨[c], post.1, post.2⟩
  | .waitLocal v => ⟨[], [], .ok (some v)⟩
  | .statusLocal =>
    ⟨[], [], .ok (some (.obj [("connected", .bool (decide (0 < clientCount))),
      ("clients", .num (clientCount : Int)), ("port", .num (port : Int))]))⟩

/-- C6 (counterexample). Two connectMcp calls for the same url that
interleave at the awaits — both run the already-connected check before
either stores its record — leave the manager with two Connected records
for that url, and the two callers observe different records; so "never
two Connected sessions for the same url" and "both callers observe the
same resulting record" fail under concurrency. -/
theorem c6_concurrent_counterexample :
    connectedCountForUrl "ws://localhost:9999"
      (connectMcpPhased "ws://localhost:9999" "mcp-2" [] []
        (connectMcpPhased "ws://localhost:9999" "mcp-1" [] [] []).2).2 = 2 ∧
    ¬((connectMcpPhased "ws://localhost:9999" "mcp-1" [] [] []).1 =
      (connectMcpPhased "ws://localhost:9999" "mcp-2" [] []
        (connectMcpPhased "ws://localhost:9999" "mcp-1" [] [] []).2).1) := by
  decide

/-- C6 (amended). Endpoint url dedup holds sequentially: when the
manager already holds a Connected record for the url, `connectMcp`
returns that existing record and stores nothing — the manager state is
unchanged and no new session is created. Two calls that interleave
between the check and the store can still both create sessions (see the
counterexample). -/
theorem c6_endpoint_dedup_amended (url newId : String) (tools : List ToolInfo)
    (m : McpConns) (c : McpConnection)
    (h : findExistingMcp url m = some c) :
    connectMcpSeq url newId tools m = (c.info, m) := by
  simp [connectMcpSeq, connectMcpPhased, h]

/-- A manager already holding a Connected record for the url. -/
def c6Conns : McpConns :=
  [("mcp-0", ⟨⟨"mcp-0", "MCP@ws://localhost:9999", "ws://localhost:9999", true, []⟩, true⟩)]

theorem c6_endpoint_dedup_amended_witness :
    connectMcpSeq "ws://localhost:9999" "mcp-9" [] c6Conns =
      (⟨"mcp-0", "MCP@ws://localhost:9999", "ws://localhost:9999", true, []⟩, c6Conns) :=
  c6_endpoint_dedup_amended "ws://localhost:9999" "mcp-9" [] c6Conns
    ⟨⟨"mcp-0", "MCP@ws://localhost:9999", "ws://localhost:9999", true, []⟩, true⟩ rfl

/-- C7. Pass-through fidelity: an action absent from the translation
table routes to exactly one underlying call whose method is the action
string and whose params are the rest bag, both unmodified, and the
agent's reply is returned as-is rather than an unknown-action error. -/
theorem c7_passthrough_fidelity (action : String) (rest : Params) (cc port : Nat)
    (reply : Except BridgeError (Option JValue))
    (hcc : ¬(cc = 0)) (h : ¬(action ∈ knownActions)) :
    browserRoute action rest = .raw ⟨action, some rest⟩ ∧
    (runBrowser cc port action rest reply).calls = [⟨action, some rest⟩] ∧
    (runBrowser cc port action rest reply).writes = [] ∧
    (runBrowser cc port action rest reply).result = reply := by
  simp only [knownActions, List.mem_cons, List.not_mem_nil, or_false, not_or] at h
  obtain ⟨e1, e2, e3, e4, e5, e6, e7, e8, e9, e10, e11, e12, e13, e14, e15, e16, e17,
    e18, e19, e20, e21, e22, e23, e24, e25, e26, e27, e28, e29, e30, e31, e32, e33,
    e34, e35⟩ := h
  have hroute : browserRoute action rest = .raw ⟨action, some rest⟩ := by
    simp [browserRoute, e1, e2, e3, e4, e5, e6, e7, e8, e9, e10, e11, e12, e13, e14,
      e15, e16, e17, e18, e19, e20, e21, e22, e23, e24, e25, e26, e27, e28, e29, e30,
      e31, e32, e33, e34, e35]
  refine ⟨hroute, ?_, ?_, ?_⟩ <;> simp [runBrowser, hroute, hcc]

/-- The rest bag of the C7 witness. -/
def c7Rest : Params := [("foo", some (.num 1))]

theorem c7_passthrough_fidelity_witness :
    browserRoute "Fetch.enable" c7Rest = .raw ⟨"Fetch.enable", some c7Rest⟩ ∧
    (runBrowser 1 9223 "Fetch.enable" c7Rest (.ok (some (.str "ok")))).calls =
      [⟨"Fetch.enable", some c7Rest⟩] ∧
    (runBrowser 1 9223 "Fetch.enable" c7Rest (.ok (some (.str "ok")))).result =
      .ok (some (.str "ok")) :=
  have h := c7_passthrough_fidelity "Fetch.enable" c7Rest 1 9223
    (.ok (some (.str "ok"))) (by decide) (by decide)
  ⟨h.1, h.2.1, h.2.2.2⟩

/-- C8. Screenshot local side effect: the screenshot action issues
exactly one `hanzo.screenshot` call; when the call fails, nothing is
written; when it succeeds with a truthy string filename and base64
data, the decoded bytes are written to that filename and the router
answers `\x7bsaved, bytes\x7d` instead of the raw result; with no
(truthy) filename, or with a result carrying no data field, the raw
result is returned unchanged and nothing is written. -/
theorem c8_screenshot_local_effect (rest : Params) (cc port : Nat)
    (reply : Except BridgeError (Option JValue)) (hcc : ¬(cc = 0)) :
    (runBrowser cc port "screenshot" rest reply).calls =
      [⟨"hanzo.screenshot", some [("format", some (jsOrV (pget rest "format") (.str "png"))),
        ("fullPage", pget rest "fullPage")]⟩] ∧
    (∀ e, reply = .error e →
      (runBrowser cc port "screenshot" rest reply).writes = [] ∧
      (runBrowser cc port "screenshot" rest reply).result = .error e) ∧
    (∀ v name b64, reply = .ok (some v) →
      pget rest "filename" = some (.str name) → ¬(name = "") →
      getField v "data" = some (.str b64) → ¬(b64 = "") →
      (runBrowser cc port "screenshot" rest reply).writes = [(name, base64Decode b64)] ∧
      (runBrowser cc port "screenshot" rest reply).result =
        .ok (some (.obj [("saved", .str name),
          ("bytes", .num ((base64Decode b64).length : Int))]))) ∧
    (∀ shot, reply = .ok shot → truthyOpt (pget rest "filename") = false →
      (runBrowser cc port "screenshot" rest reply).writes = [] ∧
      (runBrowser cc port "screenshot" rest reply).result = .ok shot) ∧
    (∀ v, reply = .ok (some v) → ¬(v = JValue.null) → getField v "data" = none →
      (runBrowser cc port "screenshot" rest reply).writes = [] ∧
      (runBrowser cc port "screenshot" rest reply).result = .ok (some v)) := by
  have hroute : browserRoute "screenshot" rest =
      .screenshotCall ⟨"hanzo.screenshot",
        some [("format", some (jsOrV (pget rest "format") (.str "png"))),
          ("fullPage", pget rest "fullPage")]⟩ rest := by
    rw [browserRoute]
    simp
  refine ⟨?_, fun e he => ?_, fun v name b64 hre hfn hname hdata hb64 => ?_,
    fun shot hre hf => ?_, fun v hre hnull hdata => ?_⟩
  · cases reply <;> simp [runBrowser, hroute, hcc]
  · subst he
    simp [runBrowser, hroute, hcc]
  · subst hre
    have htf : truthyOpt (pget rest "filename") = true := by
      rw [hfn]
      simp [truthyOpt, truthy, hname]
    have htf2 : truthyOpt (some (JValue.str name)) = true := by
      simp [truthyOpt, truthy, hname]
    cases v with
    | obj fs =>
      rw [getField] at hdata
      have htb : truthy (.str b64) = true := by simp [truthy, hb64]
      simp [runBrowser, hroute, hcc, screenshotPost, htf, htf2, getField, hdata, htb, hfn]
    | null => simp [getField] at hdata
    | bool b => simp [getField] at hdata
    | num n => simp [getField] at hdata
    | str s2 => simp [getField] at hdata
    | arr es => simp [getField] at hdata
  · subst hre
    simp [runBrowser, hroute, hcc, screenshotPost, hf]
  · subst hre
    by_cases hf : truthyOpt (pget rest "filename") = true
    · cases v with
      | null => exact absurd rfl hnull
      | bool b => simp [runBrowser, hroute, hcc, screenshotPost, hf, getField]
      | num n => simp [runBrowser, hroute, hcc, screenshotPost, hf, getField]
      | str s2 => simp [runBrowser, hroute, hcc, screenshotPost, hf, getField]
      | arr es => simp [runBrowser, hroute, hcc, screenshotPost, hf, getField]
      | obj fs =>
        rw [getField] at hdata
        simp [runBrowser, hroute, hcc, screenshotPost, hf, getField, hdata]
    · simp only [Bool.not_eq_true] at hf
      simp [runBrowser, hroute, hcc, screenshotPost, hf]

/-- The rest bag of the C8 witness:
`\x7baction:"screenshot", format:"png", filename:"out.png"\x7d`. -/
def c8Rest : Params := [("format", some (.str "png")), ("filename", some (.str "out.png"))]

/-- The agent's reply for the C8 witness: `\x7bdata: "aGk="\x7d`
(base64 of the two bytes `hi`). -/
def c8Reply : Except BridgeError (Option JValue) :=
  .ok (some (.obj [("data", .str "aGk=")]))

theorem c8_screenshot_local_effect_witness :
    (runBrowser 1 9223 "screenshot" c8Rest c8Reply).writes = [("out.png", [104, 105])] ∧
    (runBrowser 1 9223 "screenshot" c8Rest c8Reply).result =
      .ok (some (.obj [("saved", .str "out.png"), ("bytes", .num 2)])) :=
  have h := c8_screenshot_local_effect c8Rest 1 9223 c8Reply (by decide)
  have h3 := h.2.2.1 (.obj [("data", .str "aGk=")]) "out.png" "aGk="
    rfl rfl (by decide) rfl (by decide)
  ⟨h3.1, h3.2⟩

end Zap
